import Mathlib

/-!
Shallow embedding of `src/sopa/io/explorer/transcripts.py`.

The source builds a multi-resolution tile pyramid from a table of 2D points
with a categorical gene label, and writes it into a zarr zip store.
Coordinates are modelled as rationals (the source uses floating point only
for exact small arithmetic here: division by tile sizes, floor, ceil, max);
the numpy arrays become Lean lists, and the zarr container becomes an
explicit output structure (`WTOutput`): one `LevelOut` per created level
group, one `Tile` per materialized tile group.

`np.random.choice(n, k, replace=False)` is an external library call; it is
modelled by an explicit function parameter `choice : ℕ → ℕ → List ℕ`
together with the predicate `ChoiceSpec` stating numpy's documented
contract for `replace=False` (length `k`, no duplicates, values `< n`,
defined whenever `k ≤ n`).
-/

attribute [local semireducible] Rat.add Rat.mul Rat.sub Rat.inv

namespace Sopa

/-- Lexicographic comparison of strings as character lists, by code point:
the order pandas uses when sorting string categories. -/
def charListLe : List Char → List Char → Bool
  | [], _ => true
  | _ :: _, [] => false
  | a :: as, b :: bs =>
    if a.toNat < b.toNat then true
    else if b.toNat < a.toNat then false
    else charListLe as bs

/-- Lexicographic ascending order on strings (code-point order). -/
def strLe (a b : String) : Prop := charListLe a.data b.data = true

instance : DecidableRel strLe :=
  fun a b => instDecidableEqBool (charListLe a.data b.data) true

/-- `MAX_LEVELS = 15` from the source. -/
def MAX_LEVELS : ℕ := 15

/-- `GRID_SIZE = 250` from the source. -/
def GRID_SIZE : ℕ := 250

/-- `QUALITY_SCORE = 40` from the source. -/
def QUALITY_SCORE : ℕ := 40

/-- One row of the input table: position and gene label. -/
structure Row where
  x : ℚ
  y : ℚ
  gene : String
deriving DecidableEq, Inhabited

/-- The dtype of the gene column of the input dataframe: `object` for plain
strings, `category` after `astype("category")`. -/
inductive Dtype
  | object
  | category
deriving DecidableEq, Inhabited

/-- The input pandas DataFrame: its rows and the dtype of the gene column
(the only dtype the function touches). -/
structure DataFrame where
  rows : List Row
  geneDtype : Dtype
deriving DecidableEq, Inhabited

/-- `df[gene].astype("category").cat.categories`: the distinct gene names in
lexicographic ascending order (pandas sorts string categories ascending). -/
def geneNames (df : DataFrame) : List String :=
  List.insertionSort strLe (df.rows.map Row.gene).dedup

/-- `cat.codes` for one value: its index in the sorted category list. -/
def geneCode (names : List String) (g : String) : ℕ := names.indexOf g

/-- The parallel per-point arrays built by `write_transcripts` before the
level loop: `location` (x, y, z=0), `valid` (all 1), `status` (all 0),
`gene_identity`, `quality_score` (all 40), `codeword_identity`
(gene code, 65535), `uuid` and `transcript_id` (sequential index, 65535). -/
structure Bundle where
  location : List (ℚ × ℚ × ℚ)
  valid : List ℕ
  status : List ℕ
  gene_identity : List ℕ
  quality_score : List ℕ
  codeword_identity : List (ℕ × ℕ)
  uuid : List (ℕ × ℕ)
  transcript_id : List (ℕ × ℕ)
deriving DecidableEq, Inhabited

/-- The working point count: the length of `location` (the source uses
`len(location)`). -/
def Bundle.size (b : Bundle) : ℕ := b.location.length

/-- The full-resolution attribute bundle built from the dataframe
(source lines 26-51). -/
def makeBundle (df : DataFrame) : Bundle :=
  { location := df.rows.map (fun r => (r.x, r.y, 0))
    valid := List.replicate df.rows.length 1
    status := List.replicate df.rows.length 0
    gene_identity := df.rows.map (fun r => geneCode (geneNames df) r.gene)
    quality_score := List.replicate df.rows.length QUALITY_SCORE
    codeword_identity := df.rows.map (fun r => (geneCode (geneNames df) r.gene, 65535))
    uuid := (List.range df.rows.length).map (fun i => (i, 65535))
    transcript_id := (List.range df.rows.length).map (fun i => (i, 65535)) }

/-- Numpy fancy indexing `arr[idxs]`: pick the listed positions. -/
def sliceList {α : Type} (l : List α) (d : α) (idxs : List ℕ) : List α :=
  idxs.map (fun i => l.getD i d)

/-- Slicing every parallel array by the same index list
(source lines 177-184, and the `arr[loc]` slices inside the tile loop). -/
def Bundle.slice (b : Bundle) (idxs : List ℕ) : Bundle :=
  { location := sliceList b.location (0, 0, 0) idxs
    valid := sliceList b.valid 0 idxs
    status := sliceList b.status 0 idxs
    gene_identity := sliceList b.gene_identity 0 idxs
    quality_score := sliceList b.quality_score 0 idxs
    codeword_identity := sliceList b.codeword_identity (0, 0) idxs
    uuid := sliceList b.uuid (0, 0) idxs
    transcript_id := sliceList b.transcript_id (0, 0) idxs }

/-- `subsample_indices(n_samples)` (source lines 10-12): pick `n // 4`
indices without replacement; the random draw is the `choice` parameter. -/
def subsample_indices (choice : ℕ → ℕ → List ℕ) (n_samples : ℕ) : List ℕ :=
  choice n_samples (n_samples / 4)

/-- Numpy's documented contract for `np.random.choice(n, k, replace=False)`:
whenever `k ≤ n`, the result has length `k`, no duplicates, and entries
below `n`. -/
def ChoiceSpec (choice : ℕ → ℕ → List ℕ) : Prop :=
  ∀ n k, k ≤ n →
    (choice n k).length = k ∧ (choice n k).Nodup ∧ ∀ i ∈ choice n k, i < n

/-- A concrete choice function satisfying `ChoiceSpec`, used to instantiate
theorems on concrete inputs. -/
def defaultChoice (_n k : ℕ) : List ℕ := List.range k

/-- `tile_size = GRID_SIZE * 2**level` (source line 93). -/
def tile_size (level : ℕ) : ℚ := (GRID_SIZE : ℚ) * 2 ^ level

/-- One coordinate of `np.floor(location[:, :2] / tile_size).clip(0).astype(int)`
(source line 97). -/
def tileIndex (t : ℚ) (c : ℚ) : ℕ := (max 0 (Int.floor (c / t))).toNat

/-- `ceil(xmax / tile_size)` (source line 104), as a natural number
(nonnegative since the numerator is a coordinate maximum `≥ 0`). -/
def nTiles (m : ℚ) (t : ℚ) : ℕ := (Int.ceil (m / t)).toNat

/-- A materialized tile group: its key `(tx, ty)` (rendered `"tx,ty"` in the
store) and the positions (`np.where` result) of its points in the working
arrays. -/
structure Tile where
  tx : ℕ
  ty : ℕ
  loc : List ℕ
deriving DecidableEq, Inhabited

/-- `np.where(tiles_str_indices == str_index)[0]` (source line 109): the
positions whose tile key equals `(tx, ty)`.  The source compares the
rendered strings `f"{tx},{ty}"`, whose equality coincides with equality of
the integer pairs. -/
def tileLoc (pts : List (ℚ × ℚ × ℚ)) (t : ℚ) (tx ty : ℕ) : List ℕ :=
  (List.range pts.length).filter (fun j =>
    decide (tileIndex t (pts.getD j (0, 0, 0)).1 = tx ∧
      tileIndex t (pts.getD j (0, 0, 0)).2.1 = ty))

/-- The tile enumeration of one level (source lines 106-119): `tx` ascending,
then `ty` ascending, skipping tiles with zero matching points. -/
def levelTiles (xmax ymax : ℚ) (t : ℚ) (pts : List (ℚ × ℚ × ℚ)) : List Tile :=
  (List.range (nTiles xmax t)).flatMap (fun tx =>
    (List.range (nTiles ymax t)).filterMap (fun ty =>
      if (tileLoc pts t tx ty).length = 0 then none
      else some ⟨tx, ty, tileLoc pts t tx ty⟩))

/-- One created level group (`grids.create_group(level)`, source line 91):
the level number, the working point count printed at line 95, the working
bundle used at this level, and the materialized tiles. -/
structure LevelOut where
  level : ℕ
  count : ℕ
  bundle : Bundle
  tiles : List Tile
deriving DecidableEq, Inhabited

/-- `grid_number_objects` for one level: the object counts of its
materialized tiles, in enumeration order (source line 119). -/
def LevelOut.numObjects (lo : LevelOut) : List ℕ :=
  lo.tiles.map (fun tl => tl.loc.length)

/-- `grid_keys` for one level, as integer pairs (source line 118 stores the
rendered string `"tx,ty"`). -/
def LevelOut.gridKeys (lo : LevelOut) : List (ℕ × ℕ) :=
  lo.tiles.map (fun tl => (tl.tx, tl.ty))

/-- Building one level group from the working bundle (source lines 91-119). -/
def buildLevel (xmax ymax : ℚ) (level : ℕ) (b : Bundle) : LevelOut :=
  { level := level
    count := b.size
    bundle := b
    tiles := levelTiles xmax ymax (tile_size level) b.location }

/-- The level loop (source lines 90-184): build each level, stop after the
first level whose tile grid is a single tile (recording
`number_levels = level + 1`), otherwise subsample and continue; at most
`MAX_LEVELS` iterations (the fuel).  Returns the created level groups and
the recorded `number_levels` (none when the loop exhausts `MAX_LEVELS`
without the termination condition firing). -/
def runLevels (choice : ℕ → ℕ → List ℕ) (xmax ymax : ℚ) :
    ℕ → ℕ → Bundle → List LevelOut × Option ℕ
  | _, 0, _ => ([], none)
  | level, fuel + 1, b =>
    if nTiles xmax (tile_size level) * nTiles ymax (tile_size level) = 1 then
      ([buildLevel xmax ymax level b], some (level + 1))
    else
      let next := runLevels choice xmax ymax (level + 1) fuel
        (b.slice (subsample_indices choice b.size))
      (buildLevel xmax ymax level b :: next.1, next.2)

/-- Errors `write_transcripts` can raise before touching the output path:
the reduction over an empty axis in `location.max(axis=0)` (line 29), and
the coordinate-sign assertions (lines 31-32). -/
inductive WTError
  | emptyInput
  | negativeCoordinate
deriving DecidableEq, Inhabited

/-- The written container: root attributes that depend on the input, and the
`grids` group content. -/
structure WTOutput where
  gene_names : List String
  number_genes : ℕ
  number_rnas : ℕ
  levels : List LevelOut
  number_levels : Option ℕ
deriving DecidableEq, Inhabited

instance : DecidableEq (Except WTError WTOutput) := fun a b =>
  match a, b with
  | Except.ok x, Except.ok y =>
    if h : x = y then isTrue (by rw [h])
    else isFalse (fun hh => h (Except.ok.inj hh))
  | Except.error x, Except.error y =>
    if h : x = y then isTrue (by rw [h])
    else isFalse (fun hh => h (Except.error.inj hh))
  | Except.ok _, Except.error _ => isFalse (fun hh => Except.noConfusion hh)
  | Except.error _, Except.ok _ => isFalse (fun hh => Except.noConfusion hh)

/-- The dataframe after `df[gene] = df[gene].astype("category")`
(source line 24): same rows, gene column dtype now categorical. -/
def dfPost (df : DataFrame) : DataFrame := { df with geneDtype := Dtype.category }

/-- Maximum of a nonempty list of rationals (`.max(axis=0)` per column);
the `[]` case is unreachable behind the emptiness check. -/
def listMax : List ℚ → ℚ
  | [] => 0
  | c :: cs => cs.foldl max c

/-- `xmax` (source line 29), fixed for the whole run. -/
def dfXmax (df : DataFrame) : ℚ := listMax (df.rows.map Row.x)

/-- `ymax` (source line 29), fixed for the whole run. -/
def dfYmax (df : DataFrame) : ℚ := listMax (df.rows.map Row.y)

/-- The container content written on the success path (source lines 84-186). -/
def buildOutput (choice : ℕ → ℕ → List ℕ) (df : DataFrame) : WTOutput :=
  { gene_names := geneNames (dfPost df)
    number_genes := (geneNames (dfPost df)).length
    number_rnas := df.rows.length
    levels := (runLevels choice (dfXmax df) (dfYmax df) 0 MAX_LEVELS (makeBundle (dfPost df))).1
    number_levels :=
      (runLevels choice (dfXmax df) (dfYmax df) 0 MAX_LEVELS (makeBundle (dfPost df))).2 }

/-- `write_transcripts` (source lines 20-186).  Returns the dataframe as the
caller sees it after the call (the gene column was retyped in place at
line 24 before anything else) and either an error raised before the output
path is touched, or the written container. -/
def write_transcripts (choice : ℕ → ℕ → List ℕ) (df : DataFrame) :
    DataFrame × Except WTError WTOutput :=
  if df.rows.length = 0 then
    (dfPost df, Except.error WTError.emptyInput)
  else if df.rows.any (fun r => decide (r.x < 0) || decide (r.y < 0)) then
    (dfPost df, Except.error WTError.negativeCoordinate)
  else
    (dfPost df, Except.ok (buildOutput choice df))

/-- `write_transcripts` together with the file at the target path: the
pre-existing file is deleted (line 81-82) only after validation passes, so
on error the file is untouched; on success it is replaced wholesale. -/
def write_transcriptsFile (choice : ℕ → ℕ → List ℕ) (df : DataFrame)
    (file : Option WTOutput) : DataFrame × Option WTOutput × Except WTError Unit :=
  match write_transcripts choice df with
  | (df2, Except.error e) => (df2, file, Except.error e)
  | (df2, Except.ok out) => (df2, some out, Except.ok ())

/-- Extract the written container from a successful run (used to state
concrete counterexamples and witnesses). -/
def okOut (r : DataFrame × Except WTError WTOutput) : WTOutput :=
  match r.2 with
  | Except.ok o => o
  | Except.error _ => default

/-! ### Basic facts: the modelled randomness, slicing, and the working-set
invariant maintained across subsampling -/

theorem defaultChoice_spec : ChoiceSpec defaultChoice := by
  intro n k hk
  refine ⟨List.length_range k, List.nodup_range k, ?_⟩
  intro i hi
  exact lt_of_lt_of_le (List.mem_range.mp hi) hk

theorem sliceList_length {α : Type} (l : List α) (d : α) (s : List ℕ) :
    (sliceList l d s).length = s.length :=
  List.length_map _ _

theorem sliceList_getD {α : Type} (l : List α) (d : α) (s : List ℕ) (j : ℕ)
    (h : j < s.length) :
    (sliceList l d s).getD j d = l.getD (s.getD j 0) d := by
  have h2 : j < (sliceList l d s).length := by rw [sliceList_length]; exact h
  rw [List.getD_eq_getElem _ _ h2, List.getD_eq_getElem _ _ h]
  simp [sliceList]

theorem Bundle.slice_size (b : Bundle) (s : List ℕ) : (b.slice s).size = s.length :=
  sliceList_length _ _ _

/-- The per-point fact tying working position `j` of a bundle to the original
full-resolution row it came from (its `uuid` first column). -/
def TrackAt (df : DataFrame) (b : Bundle) (j : ℕ) : Prop :=
  (b.uuid.getD j (0, 0)).1 < df.rows.length ∧
  b.location.getD j (0, 0, 0) =
    ((df.rows.getD (b.uuid.getD j (0, 0)).1 default).x,
     (df.rows.getD (b.uuid.getD j (0, 0)).1 default).y, 0) ∧
  b.gene_identity.getD j 0 =
    geneCode (geneNames df) (df.rows.getD (b.uuid.getD j (0, 0)).1 default).gene ∧
  b.codeword_identity.getD j (0, 0) = (b.gene_identity.getD j 0, 65535) ∧
  (b.uuid.getD j (0, 0)).2 = 65535 ∧
  b.transcript_id.getD j (0, 0) = b.uuid.getD j (0, 0) ∧
  b.valid.getD j 0 = 1 ∧ b.status.getD j 0 = 0 ∧
  b.quality_score.getD j 0 = QUALITY_SCORE

/-- The working-bundle invariant: all parallel arrays have the working size,
the carried original indices are pairwise distinct, and every working
position tracks its original row. -/
structure Inv (df : DataFrame) (b : Bundle) : Prop where
  len_valid : b.valid.length = b.size
  len_status : b.status.length = b.size
  len_gene : b.gene_identity.length = b.size
  len_quality : b.quality_score.length = b.size
  len_codeword : b.codeword_identity.length = b.size
  len_uuid : b.uuid.length = b.size
  len_tid : b.transcript_id.length = b.size
  nodup : (b.uuid.map Prod.fst).Nodup
  track : ∀ j, j < b.size → TrackAt df b j

theorem getD_map_of_lt {α β : Type} (f : α → β) (l : List α) (d : β) (j : ℕ)
    (h : j < l.length) (dd : α) :
    (l.map f).getD j d = f (l.getD j dd) := by
  rw [List.getD_eq_getElem _ _ (by simpa using h), List.getD_eq_getElem _ _ h]
  simp

theorem getD_replicate_of_lt {α : Type} (a d : α) (n j : ℕ) (h : j < n) :
    (List.replicate n a).getD j d = a := by
  rw [List.getD_eq_getElem _ _ (by simpa using h)]
  simp

theorem getD_range_pair (n j : ℕ) (h : j < n) :
    ((List.range n).map (fun i => (i, 65535))).getD j (0, 0) = (j, 65535) := by
  rw [getD_map_of_lt _ _ _ _ (by simpa using h) 0,
    List.getD_eq_getElem _ _ (by simpa using h)]
  simp

theorem makeBundle_inv (df : DataFrame) : Inv df (makeBundle df) := by
  refine ⟨?_, ?_, ?_, ?_, ?_, ?_, ?_, ?_, ?_⟩
  · simp [makeBundle, Bundle.size]
  · simp [makeBundle, Bundle.size]
  · simp [makeBundle, Bundle.size]
  · simp [makeBundle, Bundle.size]
  · simp [makeBundle, Bundle.size]
  · simp [makeBundle, Bundle.size]
  · simp [makeBundle, Bundle.size]
  · show (((List.range df.rows.length).map (fun i => (i, 65535))).map Prod.fst).Nodup
    simp only [List.map_map]
    simpa [Function.comp_def] using List.nodup_range df.rows.length
  · intro j hj
    have hn : j < df.rows.length := by simpa [makeBundle, Bundle.size] using hj
    unfold TrackAt
    simp only [makeBundle]
    rw [getD_range_pair _ _ hn,
      getD_map_of_lt _ _ _ _ hn default, getD_map_of_lt _ _ _ _ hn default,
      getD_map_of_lt _ _ _ _ hn default,
      getD_replicate_of_lt _ _ _ _ hn, getD_replicate_of_lt _ _ _ _ hn,
      getD_replicate_of_lt _ _ _ _ hn]
    refine ⟨hn, rfl, rfl, rfl, ?_, ?_, rfl, rfl, rfl⟩ <;> simp

theorem slice_inv {df : DataFrame} {b : Bundle} (hb : Inv df b) (s : List ℕ)
    (hnd : s.Nodup) (hlt : ∀ i ∈ s, i < b.size) : Inv df (b.slice s) := by
  have hsize : (b.slice s).size = s.length := b.slice_size s
  constructor
  · rw [hsize]; exact sliceList_length _ _ _
  · rw [hsize]; exact sliceList_length _ _ _
  · rw [hsize]; exact sliceList_length _ _ _
  · rw [hsize]; exact sliceList_length _ _ _
  · rw [hsize]; exact sliceList_length _ _ _
  · rw [hsize]; exact sliceList_length _ _ _
  · rw [hsize]; exact sliceList_length _ _ _
  · show ((sliceList b.uuid (0, 0) s).map Prod.fst).Nodup
    have huuid : ∀ i₁ ∈ s, ∀ i₂ ∈ s,
        (b.uuid.getD i₁ (0, 0)).1 = (b.uuid.getD i₂ (0, 0)).1 → i₁ = i₂ := by
      intro i₁ h₁ i₂ h₂ heq
      have hb₁ : i₁ < b.uuid.length := by rw [hb.len_uuid]; exact hlt i₁ h₁
      have hb₂ : i₂ < b.uuid.length := by rw [hb.len_uuid]; exact hlt i₂ h₂
      have hm₁ : i₁ < (b.uuid.map Prod.fst).length := by
        rw [List.length_map]; exact hb₁
      have hm₂ : i₂ < (b.uuid.map Prod.fst).length := by
        rw [List.length_map]; exact hb₂
      have : (b.uuid.map Prod.fst).get ⟨i₁, hm₁⟩ = (b.uuid.map Prod.fst).get ⟨i₂, hm₂⟩ := by
        simp only [List.get_eq_getElem, List.getElem_map]
        rw [← List.getD_eq_getElem b.uuid (0, 0) hb₁, ← List.getD_eq_getElem b.uuid (0, 0) hb₂]
        exact heq
      have h3 := (List.Nodup.get_inj_iff hb.nodup).mp this
      exact congrArg Fin.val h3
    have : sliceList b.uuid (0, 0) s = s.map (fun i => b.uuid.getD i (0, 0)) := rfl
    rw [this, List.map_map]
    exact List.Nodup.map_on (fun i₁ h₁ i₂ h₂ h => huuid i₁ h₁ i₂ h₂ h) hnd
  · intro j hj
    rw [hsize] at hj
    have hmem : s.getD j 0 ∈ s := by
      rw [List.getD_eq_getElem _ _ hj]
      exact List.getElem_mem hj
    have hi : s.getD j 0 < b.size := hlt _ hmem
    have ht := hb.track (s.getD j 0) hi
    unfold TrackAt at ht ⊢
    simp only [Bundle.slice]
    rw [sliceList_getD _ _ _ _ hj, sliceList_getD _ _ _ _ hj, sliceList_getD _ _ _ _ hj,
      sliceList_getD _ _ _ _ hj, sliceList_getD _ _ _ _ hj, sliceList_getD _ _ _ _ hj,
      sliceList_getD _ _ _ _ hj, sliceList_getD _ _ _ _ hj]
    exact ht

/-! ### Structure of the level loop -/

/-- The termination test of the level loop at a given level (source line 171),
against the fixed level-0 bounding box. -/
def terminalAt (xmax ymax : ℚ) (L : ℕ) : Prop :=
  nTiles xmax (tile_size L) * nTiles ymax (tile_size L) = 1

instance (xmax ymax : ℚ) (L : ℕ) : Decidable (terminalAt xmax ymax L) :=
  instDecidableEqNat _ _

theorem runLevels_head (choice : ℕ → ℕ → List ℕ) (xmax ymax : ℚ) (level fuel : ℕ)
    (b : Bundle) :
    ∃ rest, (runLevels choice xmax ymax level (fuel + 1) b).1
      = buildLevel xmax ymax level b :: rest := by
  rw [runLevels]
  by_cases hterm : nTiles xmax (tile_size level) * nTiles ymax (tile_size level) = 1
  · rw [if_pos hterm]
    exact ⟨[], rfl⟩
  · rw [if_neg hterm]
    exact ⟨_, rfl⟩

theorem runLevels_mem (choice : ℕ → ℕ → List ℕ) (xmax ymax : ℚ) (fuel : ℕ) :
    ∀ (level : ℕ) (b : Bundle),
      ∀ lo ∈ (runLevels choice xmax ymax level fuel b).1,
        lo.count = lo.bundle.size ∧
        lo.tiles = levelTiles xmax ymax (tile_size lo.level) lo.bundle.location := by
  induction fuel with
  | zero => intro level b lo hlo; simp [runLevels] at hlo
  | succ f ih =>
    intro level b lo hlo
    rw [runLevels] at hlo
    by_cases hterm : nTiles xmax (tile_size level) * nTiles ymax (tile_size level) = 1
    · rw [if_pos hterm] at hlo
      simp only [List.mem_singleton] at hlo
      subst hlo
      exact ⟨rfl, rfl⟩
    · rw [if_neg hterm] at hlo
      simp only [List.mem_cons] at hlo
      rcases hlo with h | h
      · subst h; exact ⟨rfl, rfl⟩
      · exact ih (level + 1) _ lo h

theorem runLevels_inv {df : DataFrame} (choice : ℕ → ℕ → List ℕ)
    (hc : ChoiceSpec choice) (xmax ymax : ℚ) (fuel : ℕ) :
    ∀ (level : ℕ) (b : Bundle), Inv df b →
      ∀ lo ∈ (runLevels choice xmax ymax level fuel b).1, Inv df lo.bundle := by
  induction fuel with
  | zero => intro level b _ lo hlo; simp [runLevels] at hlo
  | succ f ih =>
    intro level b hb lo hlo
    rw [runLevels] at hlo
    by_cases hterm : nTiles xmax (tile_size level) * nTiles ymax (tile_size level) = 1
    · rw [if_pos hterm] at hlo
      simp only [List.mem_singleton] at hlo
      subst hlo
      exact hb
    · rw [if_neg hterm] at hlo
      simp only [List.mem_cons] at hlo
      rcases hlo with h | h
      · subst h; exact hb
      · refine ih (level + 1) _ ?_ lo h
        have hspec := hc b.size (b.size / 4) (Nat.div_le_self _ _)
        exact slice_inv hb _ hspec.2.1 hspec.2.2

theorem runLevels_idx (choice : ℕ → ℕ → List ℕ) (xmax ymax : ℚ) (fuel : ℕ) :
    ∀ (level : ℕ) (b : Bundle) (i : ℕ),
      i < (runLevels choice xmax ymax level fuel b).1.length →
      ((runLevels choice xmax ymax level fuel b).1.getD i default).level = level + i := by
  induction fuel with
  | zero => intro level b i hi; simp [runLevels] at hi
  | succ f ih =>
    intro level b i hi
    rw [runLevels] at hi ⊢
    by_cases hterm : nTiles xmax (tile_size level) * nTiles ymax (tile_size level) = 1
    · rw [if_pos hterm] at hi ⊢
      simp only [List.length_singleton] at hi
      interval_cases i
      simp [buildLevel]
    · rw [if_neg hterm] at hi ⊢
      cases i with
      | zero => simp [buildLevel]
      | succ i =>
        simp only [List.getD_cons_succ]
        simp only [List.length_cons] at hi
        have := ih (level + 1) (b.slice (subsample_indices choice b.size)) i
          (by omega)
        rw [this]
        omega

theorem runLevels_chain (choice : ℕ → ℕ → List ℕ) (hc : ChoiceSpec choice)
    (xmax ymax : ℚ) (fuel : ℕ) :
    ∀ (level : ℕ) (b : Bundle) (i : ℕ),
      i + 1 < (runLevels choice xmax ymax level fuel b).1.length →
      ((runLevels choice xmax ymax level fuel b).1.getD (i + 1) default).bundle
        = ((runLevels choice xmax ymax level fuel b).1.getD i default).bundle.slice
            (subsample_indices choice
              ((runLevels choice xmax ymax level fuel b).1.getD i default).bundle.size) ∧
      ((runLevels choice xmax ymax level fuel b).1.getD (i + 1) default).count
        = ((runLevels choice xmax ymax level fuel b).1.getD i default).count / 4 := by
  induction fuel with
  | zero => intro level b i hi; simp [runLevels] at hi
  | succ f ih =>
    intro level b i hi
    rw [runLevels] at hi ⊢
    by_cases hterm : nTiles xmax (tile_size level) * nTiles ymax (tile_size level) = 1
    · rw [if_pos hterm] at hi
      simp only [List.length_singleton] at hi
      omega
    · rw [if_neg hterm] at hi ⊢
      cases i with
      | zero =>
        simp only [List.length_cons] at hi
        have hne : (runLevels choice xmax ymax (level + 1) f
            (b.slice (subsample_indices choice b.size))).1 ≠ [] := by
          intro hnil
          rw [hnil] at hi
          simp at hi
        cases f with
        | zero => simp [runLevels] at hne
        | succ f2 =>
          obtain ⟨rest, hrest⟩ := runLevels_head choice xmax ymax (level + 1) f2
            (b.slice (subsample_indices choice b.size))
          simp only [List.getD_cons_succ, List.getD_cons_zero, hrest]
          constructor
          · rfl
          · show (b.slice (subsample_indices choice b.size)).size = b.size / 4
            rw [Bundle.slice_size]
            exact (hc b.size (b.size / 4) (Nat.div_le_self _ _)).1
      | succ i =>
        simp only [List.getD_cons_succ]
        simp only [List.length_cons] at hi
        exact ih (level + 1) (b.slice (subsample_indices choice b.size)) i (by omega)

theorem runLevels_terminal (choice : ℕ → ℕ → List ℕ) (xmax ymax : ℚ) (k : ℕ) :
    ∀ (level fuel : ℕ) (b : Bundle),
      (∀ j, j < k → ¬ terminalAt xmax ymax (level + j)) →
      terminalAt xmax ymax (level + k) → k < fuel →
      (runLevels choice xmax ymax level fuel b).1.length = k + 1 ∧
      (runLevels choice xmax ymax level fuel b).2 = some (level + k + 1) := by
  induction k with
  | zero =>
    intro level fuel b _ hterm hfuel
    cases fuel with
    | zero => omega
    | succ f =>
      rw [runLevels]
      rw [if_pos (by simpa [terminalAt] using hterm)]
      simp
  | succ k ih =>
    intro level fuel b hmin hterm hfuel
    cases fuel with
    | zero => omega
    | succ f =>
      rw [runLevels]
      have h0 : ¬ terminalAt xmax ymax level := by
        have := hmin 0 (by omega)
        simpa using this
      rw [if_neg (by simpa [terminalAt] using h0)]
      have hih := ih (level + 1) f (b.slice (subsample_indices choice b.size))
        (fun j hj => by
          have := hmin (j + 1) (by omega)
          simpa [Nat.add_assoc, Nat.add_comm 1 j] using this)
        (by
          have : level + 1 + k = level + (k + 1) := by omega
          rw [this]
          exact hterm)
        (by omega)
      refine ⟨?_, ?_⟩
      · simp only [List.length_cons, hih.1]
      · rw [hih.2]
        congr 1
        omega

/-! ### Counting points across the tiles of a level -/

theorem mem_tileLoc {pts : List (ℚ × ℚ × ℚ)} {t : ℚ} {tx ty j : ℕ} :
    j ∈ tileLoc pts t tx ty ↔
      j < pts.length ∧ tileIndex t (pts.getD j (0, 0, 0)).1 = tx ∧
        tileIndex t (pts.getD j (0, 0, 0)).2.1 = ty := by
  simp [tileLoc, List.mem_filter, List.mem_range, decide_eq_true_eq, and_assoc]

theorem levelTiles_mem_spec {xmax ymax t : ℚ} {pts : List (ℚ × ℚ × ℚ)} {tl : Tile}
    (h : tl ∈ levelTiles xmax ymax t pts) :
    tl.tx < nTiles xmax t ∧ tl.ty < nTiles ymax t ∧
    tl.loc = tileLoc pts t tl.tx tl.ty ∧ tl.loc ≠ [] := by
  simp only [levelTiles, List.mem_flatMap, List.mem_filterMap, List.mem_range] at h
  obtain ⟨tx, htx, ty, hty, hf⟩ := h
  by_cases h0 : (tileLoc pts t tx ty).length = 0
  · rw [if_pos h0] at hf
    exact absurd hf (by simp)
  · rw [if_neg h0] at hf
    have := Option.some.inj hf
    subst this
    refine ⟨htx, hty, rfl, ?_⟩
    intro hnil
    exact h0 (by simpa using congrArg List.length hnil)

theorem sum_map_flatMap {α β : Type} (g : β → ℕ) (f : α → List β) (l : List α) :
    ((l.flatMap f).map g).sum = (l.map (fun a => ((f a).map g).sum)).sum := by
  induction l with
  | nil => rfl
  | cons a as ih => simp [List.flatMap_cons, ih]

theorem sum_filterMap_tiles (pts : List (ℚ × ℚ × ℚ)) (t : ℚ) (tx : ℕ) (L : List ℕ) :
    ((L.filterMap (fun ty =>
        if (tileLoc pts t tx ty).length = 0 then none
        else some (Tile.mk tx ty (tileLoc pts t tx ty)))).map (fun tl => tl.loc.length)).sum
      = (L.map (fun ty => (tileLoc pts t tx ty).length)).sum := by
  induction L with
  | nil => rfl
  | cons y ys ih =>
    by_cases h0 : (tileLoc pts t tx y).length = 0
    · rw [List.filterMap_cons_none (by rw [if_pos h0])]
      rw [ih, List.map_cons, List.sum_cons, h0, Nat.zero_add]
    · rw [List.filterMap_cons_some (by rw [if_neg h0])]
      rw [List.map_cons, List.sum_cons, ih, List.map_cons, List.sum_cons]

theorem levelTiles_sum_cols (xmax ymax t : ℚ) (pts : List (ℚ × ℚ × ℚ)) :
    ((levelTiles xmax ymax t pts).map (fun tl => tl.loc.length)).sum
      = ((List.range (nTiles xmax t)).map (fun tx =>
          ((List.range (nTiles ymax t)).map
            (fun ty => (tileLoc pts t tx ty).length)).sum)).sum := by
  unfold levelTiles
  rw [sum_map_flatMap]
  apply congrArg
  apply List.map_congr_left
  intro tx _
  exact sum_filterMap_tiles pts t tx _

theorem sum_list_range_nat (n : ℕ) (f : ℕ → ℕ) :
    ((List.range n).map f).sum = ∑ i in Finset.range n, f i := by
  induction n with
  | zero => simp
  | succ m ih => rw [List.range_succ, Finset.sum_range_succ]; simp [ih]

theorem length_filter_range (n : ℕ) (P : ℕ → Prop) [DecidablePred P] :
    ((List.range n).filter (fun j => decide (P j))).length
      = ((Finset.range n).filter P).card := by
  induction n with
  | zero => simp
  | succ m ih =>
    rw [List.range_succ, Finset.range_succ, List.filter_append]
    by_cases h : P m
    · rw [Finset.filter_insert, if_pos h,
        Finset.card_insert_of_not_mem (by simp)]
      simp [h, ih]
    · rw [Finset.filter_insert, if_neg h]
      simp [h, ih]

theorem card_box_fiberwise (n nx ny : ℕ) (fx fy : ℕ → ℕ) :
    ((Finset.range n).filter (fun j => fx j < nx ∧ fy j < ny)).card
      = ∑ tx in Finset.range nx, ∑ ty in Finset.range ny,
          ((Finset.range n).filter (fun j => fx j = tx ∧ fy j = ty)).card := by
  have H : ∀ j ∈ (Finset.range n).filter (fun j => fx j < nx ∧ fy j < ny),
      (fun j => (fx j, fy j)) j ∈ Finset.range nx ×ˢ Finset.range ny := by
    intro j hj
    simp only [Finset.mem_filter] at hj
    simp [Finset.mem_product, hj.2.1, hj.2.2]
  rw [Finset.card_eq_sum_card_fiberwise H, Finset.sum_product]
  apply Finset.sum_congr rfl
  intro tx htx
  apply Finset.sum_congr rfl
  intro ty hty
  congr 1
  rw [Finset.filter_filter]
  apply Finset.filter_congr
  intro j _
  simp only [Finset.mem_range] at htx hty
  constructor
  · rintro ⟨_, hpair⟩
    have h1 := congrArg Prod.fst hpair
    have h2 := congrArg Prod.snd hpair
    exact ⟨h1, h2⟩
  · rintro ⟨h1, h2⟩
    exact ⟨⟨h1 ▸ htx, h2 ▸ hty⟩, by rw [h1, h2]⟩

/-- The number of working points whose tile key lies inside the enumerated
tile range `[0, ceil(xmax/t)) × [0, ceil(ymax/t))`. -/
def inBoxCount (xmax ymax t : ℚ) (pts : List (ℚ × ℚ × ℚ)) : ℕ :=
  ((List.range pts.length).filter (fun j =>
    decide (tileIndex t (pts.getD j (0, 0, 0)).1 < nTiles xmax t ∧
      tileIndex t (pts.getD j (0, 0, 0)).2.1 < nTiles ymax t))).length

theorem levelTiles_sum (xmax ymax t : ℚ) (pts : List (ℚ × ℚ × ℚ)) :
    ((levelTiles xmax ymax t pts).map (fun tl => tl.loc.length)).sum
      = inBoxCount xmax ymax t pts := by
  rw [levelTiles_sum_cols]
  unfold inBoxCount
  rw [length_filter_range, card_box_fiberwise pts.length (nTiles xmax t) (nTiles ymax t)
    (fun j => tileIndex t (pts.getD j (0, 0, 0)).1)
    (fun j => tileIndex t (pts.getD j (0, 0, 0)).2.1)]
  rw [sum_list_range_nat]
  apply Finset.sum_congr rfl
  intro tx _
  rw [sum_list_range_nat]
  apply Finset.sum_congr rfl
  intro ty _
  unfold tileLoc
  rw [length_filter_range]

/-! ### The gene catalog order -/

theorem charListLe_total : ∀ (a b : List Char),
    charListLe a b = true ∨ charListLe b a = true
  | [], _ => Or.inl rfl
  | _ :: _, [] => Or.inr rfl
  | a :: as, b :: bs => by
    unfold charListLe
    by_cases h1 : a.toNat < b.toNat
    · left; rw [if_pos h1]
    · by_cases h2 : b.toNat < a.toNat
      · right; rw [if_pos h2]
      · rw [if_neg h1, if_neg h2, if_neg h2, if_neg h1]
        exact charListLe_total as bs

theorem charListLe_trans : ∀ (a b c : List Char),
    charListLe a b = true → charListLe b c = true → charListLe a c = true
  | [], _, _, _, _ => rfl
  | _ :: _, [], _, hab, _ => by simp [charListLe] at hab
  | _ :: _, _ :: _, [], _, hbc => by simp [charListLe] at hbc
  | a :: as, b :: bs, c :: cs, hab, hbc => by
    unfold charListLe at hab hbc ⊢
    by_cases h1 : a.toNat < b.toNat
    · by_cases h2 : b.toNat < c.toNat
      · rw [if_pos (by omega)]
      · rw [if_neg h2] at hbc
        by_cases h3 : c.toNat < b.toNat
        · rw [if_pos h3] at hbc
          exact absurd hbc (by simp)
        · rw [if_pos (by omega)]
    · rw [if_neg h1] at hab
      by_cases h4 : b.toNat < a.toNat
      · rw [if_pos h4] at hab
        exact absurd hab (by simp)
      · rw [if_neg h4] at hab
        by_cases h2 : b.toNat < c.toNat
        · rw [if_pos (by omega)]
        · rw [if_neg h2] at hbc
          by_cases h5 : c.toNat < b.toNat
          · rw [if_pos h5] at hbc
            exact absurd hbc (by simp)
          · rw [if_neg h5] at hbc
            rw [if_neg (by omega), if_neg (by omega)]
            exact charListLe_trans as bs cs hab hbc

instance : IsTotal String strLe :=
  ⟨fun a b => charListLe_total a.data b.data⟩

instance : IsTrans String strLe :=
  ⟨fun a b c hab hbc => charListLe_trans a.data b.data c.data hab hbc⟩

theorem geneNames_sorted (df : DataFrame) : (geneNames df).Sorted strLe :=
  List.sorted_insertionSort strLe _

theorem geneNames_perm (df : DataFrame) :
    (geneNames df).Perm (df.rows.map Row.gene).dedup :=
  List.perm_insertionSort strLe _

theorem geneNames_nodup (df : DataFrame) : (geneNames df).Nodup :=
  (geneNames_perm df).nodup_iff.mpr (List.nodup_dedup _)

theorem mem_geneNames {df : DataFrame} {g : String} :
    g ∈ geneNames df ↔ g ∈ df.rows.map Row.gene := by
  rw [(geneNames_perm df).mem_iff, List.mem_dedup]

theorem geneCode_get (df : DataFrame) (i : ℕ) (h : i < (geneNames df).length) :
    geneCode (geneNames df) ((geneNames df).get ⟨i, h⟩) = i :=
  List.get_indexOf (geneNames_nodup df) ⟨i, h⟩

theorem geneCode_lt {df : DataFrame} {g : String} (h : g ∈ geneNames df) :
    geneCode (geneNames df) g < (geneNames df).length :=
  List.indexOf_lt_length.mpr h

theorem geneCode_getD {df : DataFrame} {g : String} (h : g ∈ geneNames df) :
    (geneNames df).getD (geneCode (geneNames df) g) "" = g := by
  rw [List.getD_eq_getElem _ _ (geneCode_lt h)]
  exact List.indexOf_get (geneCode_lt h)

/-! ### Tiling geometry and unfolding the entry point -/

theorem tile_size_pos (level : ℕ) : 0 < tile_size level := by
  unfold tile_size GRID_SIZE
  positivity

theorem tileIndex_eq_floor {t x : ℚ} (ht : 0 < t) (hx : 0 ≤ x) :
    (tileIndex t x : ℤ) = Int.floor (x / t) := by
  unfold tileIndex
  have h0 : (0 : ℤ) ≤ Int.floor (x / t) := Int.floor_nonneg.mpr (div_nonneg hx ht.le)
  rw [max_eq_right h0, Int.toNat_of_nonneg h0]

theorem dfPost_rows (df : DataFrame) : (dfPost df).rows = df.rows := rfl

theorem geneNames_dfPost (df : DataFrame) : geneNames (dfPost df) = geneNames df := rfl

theorem makeBundle_size (df : DataFrame) : (makeBundle df).size = df.rows.length := by
  simp [makeBundle, Bundle.size]

theorem write_fst (choice : ℕ → ℕ → List ℕ) (df : DataFrame) :
    (write_transcripts choice df).1 = dfPost df := by
  unfold write_transcripts
  split_ifs <;> rfl

theorem write_ok_out {choice : ℕ → ℕ → List ℕ} {df : DataFrame} {out : WTOutput}
    (h : (write_transcripts choice df).2 = Except.ok out) :
    out = buildOutput choice df ∧ df.rows.length ≠ 0 := by
  unfold write_transcripts at h
  split_ifs at h with h1 h2
  have hk : Except.ok (buildOutput choice df) = Except.ok out := h
  exact ⟨(Except.ok.inj hk).symm, h1⟩

theorem write_ok_nonneg {choice : ℕ → ℕ → List ℕ} {df : DataFrame} {out : WTOutput}
    (h : (write_transcripts choice df).2 = Except.ok out) :
    ∀ r ∈ df.rows, 0 ≤ r.x ∧ 0 ≤ r.y := by
  unfold write_transcripts at h
  split_ifs at h with h1 h2
  · intro r hr
    rw [List.any_eq_true] at h2
    push_neg at h2
    have hh := h2 r hr
    have hx : ¬ (r.x < 0) := fun hc => hh (by simp [hc])
    have hy : ¬ (r.y < 0) := fun hc => hh (by simp [hc])
    exact ⟨le_of_not_lt hx, le_of_not_lt hy⟩

theorem mem_getD_of_mem {α : Type} [Inhabited α] {l : List α} {a : α} (h : a ∈ l) :
    ∃ i, i < l.length ∧ l.getD i default = a := by
  obtain ⟨i, hi, heq⟩ := List.mem_iff_getElem.mp h
  exact ⟨i, hi, by rw [List.getD_eq_getElem _ _ hi]; exact heq⟩

theorem list_ext_getD {α : Type} (l₁ l₂ : List α) (d : α)
    (hlen : l₁.length = l₂.length)
    (h : ∀ j, j < l₁.length → l₁.getD j d = l₂.getD j d) : l₁ = l₂ := by
  apply List.ext_getElem hlen
  intro i h1 h2
  have hj := h i h1
  rwa [List.getD_eq_getElem _ _ h1, List.getD_eq_getElem _ _ h2] at hj

theorem levelTiles_nil (xmax ymax t : ℚ) : levelTiles xmax ymax t [] = [] := by
  unfold levelTiles
  apply List.flatMap_eq_nil_iff.mpr
  intro tx _
  apply List.filterMap_eq_nil_iff.mpr
  intro ty _
  simp [tileLoc]

theorem getD_mem_of_lt {α : Type} {l : List α} {i : ℕ} (d : α) (h : i < l.length) :
    l.getD i d ∈ l := by
  rw [List.getD_eq_getElem _ _ h]
  exact List.getElem_mem h

/-! ### The claims -/

/-- C1 (corrected, amended part): for every level that is built, the sum of
the per-tile object counts recorded in `grid_number_objects` for that level
equals the number of points of that level's working set whose tile key lies
inside the enumerated tile range
`[0, ceil(xmax/tile_size)) × [0, ceil(ymax/tile_size))`.  This is the
original claim restricted to in-range points: a point whose coordinate
equals a bounding-box maximum that is an exact multiple of the tile size
has tile index `ceil(max/tile_size)` itself, falls outside the enumerated
range, and is counted in no tile (see `C1_counterexample`). -/
theorem C1_grid_number_objects (choice : ℕ → ℕ → List ℕ) (df : DataFrame)
    (out : WTOutput) (h : (write_transcripts choice df).2 = Except.ok out) :
    ∀ lo ∈ out.levels,
      lo.numObjects.sum
        = inBoxCount (dfXmax df) (dfYmax df) (tile_size lo.level)
            lo.bundle.location := by
  intro lo hlo
  obtain ⟨hout, _⟩ := write_ok_out h
  subst hout
  simp only [buildOutput] at hlo
  have hmem := runLevels_mem choice (dfXmax df) (dfYmax df) MAX_LEVELS 0
    (makeBundle (dfPost df)) lo hlo
  unfold LevelOut.numObjects
  rw [hmem.2]
  exact levelTiles_sum _ _ _ _

/-- The input of `C1_counterexample`: two valid points whose `xmax = 250`
is an exact multiple of the level-0 tile size 250. -/
def dfC1 : DataFrame := ⟨[⟨10, 10, "A"⟩, ⟨250, 10, "A"⟩], Dtype.object⟩

/-- C1 (counterexample): on `dfC1` the point at `x = 250` gets tile index
`floor(250/250) = 1`, outside the enumerated range `[0, ceil(250/250)) = [0, 1)`;
the level-0 `grid_number_objects` sums to 1 while the working set has 2
points, refuting the claim that the sum always equals the working-set size. -/
theorem C1_counterexample :
    ∃ lo ∈ (okOut (write_transcripts defaultChoice dfC1)).levels,
      lo.numObjects.sum ≠ lo.count := by decide

/-- Witness for `C1_grid_number_objects` on the concrete four-point input
`dfW`. -/
def dfW : DataFrame :=
  ⟨[⟨10, 10, "A"⟩, ⟨10, 10, "B"⟩, ⟨300, 10, "A"⟩, ⟨300, 300, "C"⟩], Dtype.object⟩

/-- The container written for `dfW` under the deterministic choice
function. -/
def outW : WTOutput := okOut (write_transcripts defaultChoice dfW)

/-- Witness: `C1_grid_number_objects` applied to the concrete run on `dfW`. -/
theorem C1_witness :
    (write_transcripts defaultChoice dfW).2 = Except.ok outW ∧
    ∀ lo ∈ outW.levels,
      lo.numObjects.sum
        = inBoxCount (dfXmax dfW) (dfYmax dfW) (tile_size lo.level)
            lo.bundle.location :=
  ⟨by decide, C1_grid_number_objects defaultChoice dfW outW (by decide)⟩

/-- C2 (confirmed): for every level and every materialized tile `(tx, ty)`,
every point whose rows are written into that tile satisfies
`floor(x/tile_size) = tx` and `floor(y/tile_size) = ty` with
`tile_size = GRID_SIZE * 2^level`, and tiles with zero matching points are
not materialized. -/
theorem C2_tile_membership (choice : ℕ → ℕ → List ℕ) (df : DataFrame)
    (out : WTOutput) (hc : ChoiceSpec choice)
    (h : (write_transcripts choice df).2 = Except.ok out) :
    ∀ lo ∈ out.levels, ∀ tl ∈ lo.tiles,
      tl.loc ≠ [] ∧
      ∀ j ∈ tl.loc, j < lo.bundle.size ∧
        Int.floor ((lo.bundle.location.getD j (0, 0, 0)).1 / tile_size lo.level)
          = (tl.tx : ℤ) ∧
        Int.floor ((lo.bundle.location.getD j (0, 0, 0)).2.1 / tile_size lo.level)
          = (tl.ty : ℤ) := by
  intro lo hlo tl htl
  have hnonneg := write_ok_nonneg h
  obtain ⟨hout, _⟩ := write_ok_out h
  subst hout
  simp only [buildOutput] at hlo
  have hmem := runLevels_mem choice (dfXmax df) (dfYmax df) MAX_LEVELS 0
    (makeBundle (dfPost df)) lo hlo
  have hinv := runLevels_inv choice hc (dfXmax df) (dfYmax df) MAX_LEVELS 0
    (makeBundle (dfPost df)) (makeBundle_inv (dfPost df)) lo hlo
  rw [hmem.2] at htl
  obtain ⟨htx, hty, hloc, hne⟩ := levelTiles_mem_spec htl
  refine ⟨hne, ?_⟩
  intro j hj
  rw [hloc] at hj
  obtain ⟨hjlt, hjx, hjy⟩ := mem_tileLoc.mp hj
  have hjsize : j < lo.bundle.size := hjlt
  obtain ⟨hi, hlocj, _⟩ := hinv.track j hjsize
  have hrowmem : (dfPost df).rows.getD (lo.bundle.uuid.getD j (0, 0)).1 default
      ∈ df.rows := by
    rw [dfPost_rows] at hi ⊢
    exact getD_mem_of_lt default hi
  obtain ⟨hx0, hy0⟩ := hnonneg _ hrowmem
  have hxco : 0 ≤ (lo.bundle.location.getD j (0, 0, 0)).1 := by
    rw [hlocj]
    exact hx0
  have hyco : 0 ≤ (lo.bundle.location.getD j (0, 0, 0)).2.1 := by
    rw [hlocj]
    exact hy0
  constructor
  · exact hjsize
  constructor
  · rw [← tileIndex_eq_floor (tile_size_pos lo.level) hxco, hjx]
  · rw [← tileIndex_eq_floor (tile_size_pos lo.level) hyco, hjy]

/-- Witness: `C2_tile_membership` applied to the concrete run on `dfW`. -/
theorem C2_witness :
    ChoiceSpec defaultChoice ∧
    (write_transcripts defaultChoice dfW).2 = Except.ok outW ∧
    ∀ lo ∈ outW.levels, ∀ tl ∈ lo.tiles,
      tl.loc ≠ [] ∧
      ∀ j ∈ tl.loc, j < lo.bundle.size ∧
        Int.floor ((lo.bundle.location.getD j (0, 0, 0)).1 / tile_size lo.level)
          = (tl.tx : ℤ) ∧
        Int.floor ((lo.bundle.location.getD j (0, 0, 0)).2.1 / tile_size lo.level)
          = (tl.ty : ℤ) :=
  ⟨defaultChoice_spec, by decide,
    C2_tile_membership defaultChoice dfW outW defaultChoice_spec (by decide)⟩

/-- C3 (confirmed): for every non-terminal level with working count `n`, the
next level's working set has exactly `floor(n/4)` points, obtained by
slicing every parallel array with a duplicate-free list of indices into the
current working set (no row is picked twice). -/
theorem C3_subsampling (choice : ℕ → ℕ → List ℕ) (df : DataFrame)
    (out : WTOutput) (hc : ChoiceSpec choice)
    (h : (write_transcripts choice df).2 = Except.ok out) :
    ∀ i, i + 1 < out.levels.length →
      (out.levels.getD (i + 1) default).count
        = (out.levels.getD i default).count / 4 ∧
      ∃ s : List ℕ, s.Nodup ∧
        s.length = (out.levels.getD i default).count / 4 ∧
        (∀ j ∈ s, j < (out.levels.getD i default).count) ∧
        (out.levels.getD (i + 1) default).bundle
          = (out.levels.getD i default).bundle.slice s := by
  intro i hi
  obtain ⟨hout, _⟩ := write_ok_out h
  subst hout
  simp only [buildOutput] at hi ⊢
  have hchain := runLevels_chain choice hc (dfXmax df) (dfYmax df) MAX_LEVELS 0
    (makeBundle (dfPost df)) i hi
  have hgi : (runLevels choice (dfXmax df) (dfYmax df) 0 MAX_LEVELS
      (makeBundle (dfPost df))).1.getD i default
      ∈ (runLevels choice (dfXmax df) (dfYmax df) 0 MAX_LEVELS
          (makeBundle (dfPost df))).1 :=
    getD_mem_of_lt default (by omega)
  have hcount := (runLevels_mem choice (dfXmax df) (dfYmax df) MAX_LEVELS 0
    (makeBundle (dfPost df)) _ hgi).1
  have hspec := hc ((runLevels choice (dfXmax df) (dfYmax df) 0 MAX_LEVELS
      (makeBundle (dfPost df))).1.getD i default).bundle.size
    (((runLevels choice (dfXmax df) (dfYmax df) 0 MAX_LEVELS
      (makeBundle (dfPost df))).1.getD i default).bundle.size / 4)
    (Nat.div_le_self _ _)
  refine ⟨hchain.2, subsample_indices choice
    ((runLevels choice (dfXmax df) (dfYmax df) 0 MAX_LEVELS
      (makeBundle (dfPost df))).1.getD i default).bundle.size, ?_, ?_, ?_, hchain.1⟩
  · exact hspec.2.1
  · rw [hcount]
    exact hspec.1
  · intro j hj
    rw [hcount]
    exact hspec.2.2 j hj

/-- Witness: `C3_subsampling` applied to the concrete run on `dfW`
(4 points at level 0, `floor(4/4) = 1` point at level 1). -/
theorem C3_witness :
    ChoiceSpec defaultChoice ∧
    (write_transcripts defaultChoice dfW).2 = Except.ok outW ∧
    0 + 1 < outW.levels.length ∧
    ((outW.levels.getD (0 + 1) default).count
        = (outW.levels.getD 0 default).count / 4 ∧
      ∃ s : List ℕ, s.Nodup ∧
        s.length = (outW.levels.getD 0 default).count / 4 ∧
        (∀ j ∈ s, j < (outW.levels.getD 0 default).count) ∧
        (outW.levels.getD (0 + 1) default).bundle
          = (outW.levels.getD 0 default).bundle.slice s) :=
  ⟨defaultChoice_spec, by decide, by decide,
    C3_subsampling defaultChoice dfW outW defaultChoice_spec (by decide) 0 (by decide)⟩

/-- C4 (confirmed): if `L` is the first level (within the `MAX_LEVELS`
bound) at which `ceil(xmax/tile_size) * ceil(ymax/tile_size) = 1` — both
maxima taken from the fixed level-0 bounding box — then the run records
`number_levels = L + 1`, builds exactly `L + 1` levels, and every built
level has number `≤ L` (no tiles are produced beyond the terminal level). -/
theorem C4_termination (choice : ℕ → ℕ → List ℕ) (df : DataFrame)
    (out : WTOutput) (L : ℕ)
    (h : (write_transcripts choice df).2 = Except.ok out)
    (hL : L < MAX_LEVELS)
    (hterm : terminalAt (dfXmax df) (dfYmax df) L)
    (hmin : ∀ M, M < L → ¬ terminalAt (dfXmax df) (dfYmax df) M) :
    out.levels.length = L + 1 ∧ out.number_levels = some (L + 1) ∧
      ∀ lo ∈ out.levels, lo.level ≤ L := by
  obtain ⟨hout, _⟩ := write_ok_out h
  subst hout
  simp only [buildOutput]
  have hrt := runLevels_terminal choice (dfXmax df) (dfYmax df) L 0 MAX_LEVELS
    (makeBundle (dfPost df))
    (fun j hj => by simpa using hmin j hj)
    (by simpa using hterm) hL
  refine ⟨hrt.1, by rw [hrt.2]; congr 1; omega, ?_⟩
  intro lo hlo
  obtain ⟨i, hi, hgetd⟩ := mem_getD_of_mem hlo
  have hidx := runLevels_idx choice (dfXmax df) (dfYmax df) MAX_LEVELS 0
    (makeBundle (dfPost df)) i hi
  rw [hgetd] at hidx
  rw [hrt.1] at hi
  omega

/-- Witness: `C4_termination` applied to the concrete run on `dfW`, whose
bounding box `(300, 300)` first fits one tile at level 1 (tile size 500). -/
theorem C4_witness :
    (write_transcripts defaultChoice dfW).2 = Except.ok outW ∧
    1 < MAX_LEVELS ∧
    terminalAt (dfXmax dfW) (dfYmax dfW) 1 ∧
    (∀ M, M < 1 → ¬ terminalAt (dfXmax dfW) (dfYmax dfW) M) ∧
    (outW.levels.length = 1 + 1 ∧ outW.number_levels = some (1 + 1) ∧
      ∀ lo ∈ outW.levels, lo.level ≤ 1) :=
  ⟨by decide, by decide, by decide, by decide,
    C4_termination defaultChoice dfW outW 1 (by decide) (by decide) (by decide)
      (by decide)⟩

/-- C5 (confirmed): the gene catalog written to the container enumerates the
distinct gene names in lexicographic (code-point) ascending order; the code
of the `i`-th name is `i` (so name-to-code is a bijection onto
`[0, number_genes)`); the catalog is computed once from the full-resolution
data; and at every level each surviving point's `gene_identity`, and the
first column of its `codeword_identity`, is the catalog code of the gene of
its original full-resolution row. -/
theorem C5_gene_catalog (choice : ℕ → ℕ → List ℕ) (df : DataFrame)
    (out : WTOutput) (hc : ChoiceSpec choice)
    (h : (write_transcripts choice df).2 = Except.ok out) :
    out.gene_names = geneNames df ∧
    out.number_genes = (geneNames df).length ∧
    (geneNames df).Sorted strLe ∧
    (geneNames df).Nodup ∧
    (∀ g, g ∈ geneNames df ↔ g ∈ df.rows.map Row.gene) ∧
    (∀ i (hi : i < (geneNames df).length),
      geneCode (geneNames df) ((geneNames df).get ⟨i, hi⟩) = i) ∧
    ∀ lo ∈ out.levels, ∀ j, j < lo.bundle.size →
      lo.bundle.gene_identity.getD j 0
        = geneCode (geneNames df)
            (df.rows.getD (lo.bundle.uuid.getD j (0, 0)).1 default).gene ∧
      lo.bundle.codeword_identity.getD j (0, 0)
        = (lo.bundle.gene_identity.getD j 0, 65535) := by
  obtain ⟨hout, _⟩ := write_ok_out h
  subst hout
  refine ⟨rfl, rfl, geneNames_sorted df, geneNames_nodup df,
    fun g => mem_geneNames, fun i hi => geneCode_get df i hi, ?_⟩
  intro lo hlo j hj
  simp only [buildOutput] at hlo
  have hinv := runLevels_inv choice hc (dfXmax df) (dfYmax df) MAX_LEVELS 0
    (makeBundle (dfPost df)) (makeBundle_inv (dfPost df)) lo hlo
  obtain ⟨_, _, hgene, hcode, _⟩ := hinv.track j hj
  exact ⟨hgene, hcode⟩

/-- Witness: `C5_gene_catalog` applied to the concrete run on `dfW`
(genes `A`, `B`, `C`, codes 0, 1, 2). -/
theorem C5_witness :
    ChoiceSpec defaultChoice ∧
    (write_transcripts defaultChoice dfW).2 = Except.ok outW ∧
    (outW.gene_names = geneNames dfW ∧
      outW.number_genes = (geneNames dfW).length ∧
      (geneNames dfW).Sorted strLe ∧
      (geneNames dfW).Nodup ∧
      (∀ g, g ∈ geneNames dfW ↔ g ∈ dfW.rows.map Row.gene) ∧
      (∀ i (hi : i < (geneNames dfW).length),
        geneCode (geneNames dfW) ((geneNames dfW).get ⟨i, hi⟩) = i) ∧
      ∀ lo ∈ outW.levels, ∀ j, j < lo.bundle.size →
        lo.bundle.gene_identity.getD j 0
          = geneCode (geneNames dfW)
              (dfW.rows.getD (lo.bundle.uuid.getD j (0, 0)).1 default).gene ∧
        lo.bundle.codeword_identity.getD j (0, 0)
          = (lo.bundle.gene_identity.getD j 0, 65535)) :=
  ⟨defaultChoice_spec, by decide,
    C5_gene_catalog defaultChoice dfW outW defaultChoice_spec (by decide)⟩

/-- C6 (confirmed): if any input point has a negative `x` or `y`, the run
fails with the negative-coordinate error raised by the validation asserts,
before the output path is touched: the pre-existing file (if any) at the
target path is left unchanged, and no container content is produced.  The
input frame still comes back with its gene column retyped, since the
`astype` assignment precedes validation. -/
theorem C6_negative_aborts (choice : ℕ → ℕ → List ℕ) (df : DataFrame)
    (file : Option WTOutput) (h : ∃ r ∈ df.rows, r.x < 0 ∨ r.y < 0) :
    write_transcriptsFile choice df file
      = (dfPost df, file, Except.error WTError.negativeCoordinate) := by
  obtain ⟨r, hr, hneg⟩ := h
  have hne : ¬ df.rows.length = 0 := by
    intro h0
    rw [List.length_eq_zero] at h0
    rw [h0] at hr
    exact absurd hr (List.not_mem_nil r)
  have hany : df.rows.any (fun r => decide (r.x < 0) || decide (r.y < 0)) = true := by
    rw [List.any_eq_true]
    exact ⟨r, hr, by rcases hneg with hh | hh <;> simp [hh]⟩
  unfold write_transcriptsFile write_transcripts
  rw [if_neg hne, if_pos hany]

/-- The input of `C6_witness`: one point with a negative `x`. -/
def dfC6 : DataFrame := ⟨[⟨-1, 5, "A"⟩], Dtype.object⟩

/-- Witness: `C6_negative_aborts` applied to `dfC6`, with a pre-existing
file present at the target path. -/
theorem C6_witness :
    (∃ r ∈ dfC6.rows, r.x < 0 ∨ r.y < 0) ∧
    write_transcriptsFile defaultChoice dfC6 (some default)
      = (dfPost dfC6, some default, Except.error WTError.negativeCoordinate) :=
  ⟨by decide, C6_negative_aborts defaultChoice dfC6 (some default) (by decide)⟩

/-- C7 (corrected, amended part): when a level's working point count is
below 4, the next level's working set is empty (`floor(n/4) = 0` indices
are drawn), and the run proceeds without error; an empty level materializes
no tiles.  The original claim's "no group is written for that level" fails:
the level group itself is created unconditionally at every loop iteration
(source line 91) — only the tile groups are absent — see
`C7_counterexample`. -/
theorem C7_small_levels (choice : ℕ → ℕ → List ℕ) (df : DataFrame)
    (out : WTOutput) (hc : ChoiceSpec choice)
    (h : (write_transcripts choice df).2 = Except.ok out) :
    (∀ i, i + 1 < out.levels.length →
        (out.levels.getD i default).count < 4 →
        (out.levels.getD (i + 1) default).count = 0) ∧
    ∀ lo ∈ out.levels, lo.count = 0 → lo.tiles = [] := by
  obtain ⟨hout, _⟩ := write_ok_out h
  subst hout
  simp only [buildOutput]
  constructor
  · intro i hi hlt
    have hchain := runLevels_chain choice hc (dfXmax df) (dfYmax df) MAX_LEVELS 0
      (makeBundle (dfPost df)) i hi
    rw [hchain.2]
    exact Nat.div_eq_of_lt hlt
  · intro lo hlo hcount
    have hmem := runLevels_mem choice (dfXmax df) (dfYmax df) MAX_LEVELS 0
      (makeBundle (dfPost df)) lo hlo
    have hnil : lo.bundle.location = [] := by
      rw [← List.length_eq_zero]
      rw [hmem.1] at hcount
      exact hcount
    rw [hmem.2, hnil]
    exact levelTiles_nil _ _ _

/-- The input of `C7_counterexample`: two points far apart, so that levels
1 and 2 are built with an empty working set before the loop terminates at
level 2. -/
def dfC7 : DataFrame := ⟨[⟨0, 0, "A"⟩, ⟨1000, 300, "B"⟩], Dtype.object⟩

/-- C7 (counterexample): on `dfC7` the run still creates a level group for
levels whose working set is empty (each `LevelOut` models the group created
unconditionally by `grids.create_group(level)` at source line 91): the
written container contains a level entry with zero working points,
refuting "no group is written for that level in the container". -/
theorem C7_counterexample :
    ∃ lo ∈ (okOut (write_transcripts defaultChoice dfC7)).levels,
      lo.count = 0 := by decide

/-- Witness: `C7_small_levels` applied to the concrete run on `dfC7`
(2 points at level 0, empty working sets at levels 1 and 2). -/
theorem C7_witness :
    ChoiceSpec defaultChoice ∧
    (write_transcripts defaultChoice dfC7).2
      = Except.ok (okOut (write_transcripts defaultChoice dfC7)) ∧
    ((∀ i, i + 1 < (okOut (write_transcripts defaultChoice dfC7)).levels.length →
        ((okOut (write_transcripts defaultChoice dfC7)).levels.getD i default).count < 4 →
        ((okOut (write_transcripts defaultChoice dfC7)).levels.getD (i + 1) default).count
          = 0) ∧
      ∀ lo ∈ (okOut (write_transcripts defaultChoice dfC7)).levels,
        lo.count = 0 → lo.tiles = []) :=
  ⟨defaultChoice_spec, by decide,
    C7_small_levels defaultChoice dfC7 (okOut (write_transcripts defaultChoice dfC7))
      defaultChoice_spec (by decide)⟩

/-- C8 (confirmed): the first column of `uuid` and `id` is assigned once as
`0 .. num_transcripts - 1` over the full-resolution set (level 0) and never
recomputed: at every level the two identity arrays are identical, their
first columns form a duplicate-free subset of `[0, num_transcripts)` (not a
fresh `0..n` sequence), their second column is always the sentinel 65535,
and each working row's position equals that of the original full-resolution
row its carried index names. -/
theorem C8_identity (choice : ℕ → ℕ → List ℕ) (df : DataFrame)
    (out : WTOutput) (hc : ChoiceSpec choice)
    (h : (write_transcripts choice df).2 = Except.ok out) :
    (out.levels.getD 0 default).bundle.uuid
      = (List.range out.number_rnas).map (fun i => (i, 65535)) ∧
    ∀ lo ∈ out.levels,
      lo.bundle.transcript_id = lo.bundle.uuid ∧
      (lo.bundle.uuid.map Prod.fst).Nodup ∧
      (∀ p ∈ lo.bundle.uuid, p.1 < out.number_rnas ∧ p.2 = 65535) ∧
      ∀ j, j < lo.bundle.size →
        lo.bundle.location.getD j (0, 0, 0)
          = ((df.rows.getD (lo.bundle.uuid.getD j (0, 0)).1 default).x,
             (df.rows.getD (lo.bundle.uuid.getD j (0, 0)).1 default).y, 0) := by
  obtain ⟨hout, _⟩ := write_ok_out h
  subst hout
  simp only [buildOutput]
  constructor
  · obtain ⟨rest, hrest⟩ := runLevels_head choice (dfXmax df) (dfYmax df) 0 14
      (makeBundle (dfPost df))
    have hfix : (runLevels choice (dfXmax df) (dfYmax df) 0 MAX_LEVELS
        (makeBundle (dfPost df))).1
        = buildLevel (dfXmax df) (dfYmax df) 0 (makeBundle (dfPost df)) :: rest := hrest
    rw [hfix]
    rfl
  · intro lo hlo
    have hinv := runLevels_inv choice hc (dfXmax df) (dfYmax df) MAX_LEVELS 0
      (makeBundle (dfPost df)) (makeBundle_inv (dfPost df)) lo hlo
    refine ⟨?_, hinv.nodup, ?_, ?_⟩
    · apply list_ext_getD _ _ (0, 0)
      · rw [hinv.len_tid, hinv.len_uuid]
      · intro j hj
        rw [hinv.len_tid] at hj
        exact (hinv.track j hj).2.2.2.2.2.1
    · intro p hp
      obtain ⟨k, hk, hgetd⟩ := mem_getD_of_mem hp
      rw [hinv.len_uuid] at hk
      have ht := hinv.track k hk
      have hpk : p = lo.bundle.uuid.getD k (0, 0) := hgetd.symm
      rw [hpk]
      exact ⟨ht.1, ht.2.2.2.2.1⟩
    · intro j hj
      exact (hinv.track j hj).2.1

/-- Witness: `C8_identity` applied to the concrete run on `dfW`. -/
theorem C8_witness :
    ChoiceSpec defaultChoice ∧
    (write_transcripts defaultChoice dfW).2 = Except.ok outW ∧
    ((outW.levels.getD 0 default).bundle.uuid
        = (List.range outW.number_rnas).map (fun i => (i, 65535)) ∧
      ∀ lo ∈ outW.levels,
        lo.bundle.transcript_id = lo.bundle.uuid ∧
        (lo.bundle.uuid.map Prod.fst).Nodup ∧
        (∀ p ∈ lo.bundle.uuid, p.1 < outW.number_rnas ∧ p.2 = 65535) ∧
        ∀ j, j < lo.bundle.size →
          lo.bundle.location.getD j (0, 0, 0)
            = ((dfW.rows.getD (lo.bundle.uuid.getD j (0, 0)).1 default).x,
               (dfW.rows.getD (lo.bundle.uuid.getD j (0, 0)).1 default).y, 0)) :=
  ⟨defaultChoice_spec, by decide,
    C8_identity defaultChoice dfW outW defaultChoice_spec (by decide)⟩

/-- C9 (corrected, amended part): `write_transcripts` does mutate the
caller's frame, but only in one way: the gene column is retyped in place to
categorical (`df[gene] = df[gene].astype("category")`, source line 24); the
row values of every column — positions and gene strings — are unchanged.
The original claim that the frame, including the gene column's dtype, is
unchanged fails; see `C9_counterexample`. -/
theorem C9_frame_effect (choice : ℕ → ℕ → List ℕ) (df : DataFrame) :
    (write_transcripts choice df).1.rows = df.rows ∧
    (write_transcripts choice df).1.geneDtype = Dtype.category := by
  rw [write_fst choice df]
  exact ⟨rfl, rfl⟩

/-- The input of `C9_counterexample`: a frame whose gene column starts with
the plain string dtype. -/
def dfC9 : DataFrame := ⟨[⟨1, 1, "A"⟩], Dtype.object⟩

/-- C9 (counterexample): after the call, the caller's frame has a different
gene-column dtype than before (categorical instead of object), refuting the
claim that the call has no side effect on the input table. -/
theorem C9_counterexample :
    (write_transcripts defaultChoice dfC9).1.geneDtype ≠ dfC9.geneDtype := by decide

/-- C10 (confirmed): on an input table with zero rows, the run fails with
the empty-input error (the bounding-box maximum over an empty axis has no
identity) before the output path is touched: a pre-existing file is left
unchanged and no container content is produced. -/
theorem C10_empty_aborts (choice : ℕ → ℕ → List ℕ) (df : DataFrame)
    (file : Option WTOutput) (h : df.rows = []) :
    write_transcriptsFile choice df file
      = (dfPost df, file, Except.error WTError.emptyInput) := by
  unfold write_transcriptsFile write_transcripts
  rw [if_pos (by rw [h]; rfl)]

/-- The empty input of `C10_witness`. -/
def dfC10 : DataFrame := ⟨[], Dtype.object⟩

/-- Witness: `C10_empty_aborts` applied to the empty frame, with a
pre-existing file present at the target path. -/
theorem C10_witness :
    dfC10.rows = [] ∧
    write_transcriptsFile defaultChoice dfC10 (some default)
      = (dfPost dfC10, some default, Except.error WTError.emptyInput) :=
  ⟨by decide, C10_empty_aborts defaultChoice dfC10 (some default) (by decide)⟩

end Sopa
